import Mathlib

/-!
Verification of the asynchronous remote-job-status polling primitive and the
example EMR-on-EKS workflow wiring of this repository.

The repository source under scrutiny is the example DAG file
`astronomer/providers/amazon/aws/example_dags/example_emr_eks_containers_job.py`.
The polling component `EmrContainerSensorAsync` is imported there but its code
is not part of the given sources, so the poller is modelled from the
specification text (section 4.1 AsyncJobStatusPoller).  The DAG wiring and the
helper `create_emr_virtual_cluster_func` are embedded directly from the source.
-/

/-- Modelled from the spec: the status enumeration returned by the remote
job-control API ("get job status by id").  `pending` and `running` are the
non-terminal statuses; `succeeded`, `failed` and `cancelled` are terminal. -/
inductive JobStatus where
  | pending
  | running
  | succeeded
  | failed
  | cancelled
deriving Repr, DecidableEq

/-- Modelled from the spec: whether a remote status is terminal. -/
def JobStatus.isTerminal : JobStatus → Bool
  | .succeeded => true
  | .failed => true
  | .cancelled => true
  | _ => false

/-- Modelled from the spec: PollState, one of
Pending, Running, Succeeded, Failed, Cancelled, TimedOut. -/
inductive PollState where
  | Pending
  | Running
  | Succeeded
  | Failed
  | Cancelled
  | TimedOut
deriving Repr, DecidableEq

/-- Modelled from the spec: the terminal PollStates are
Succeeded, Failed, Cancelled and TimedOut. -/
def PollState.isTerminal : PollState → Bool
  | .Succeeded => true
  | .Failed => true
  | .Cancelled => true
  | .TimedOut => true
  | _ => false

/-- Modelled from the spec: the PollState a terminal remote status maps to;
a non-terminal remote status keeps the poller in Running. -/
def JobStatus.toPollState : JobStatus → PollState
  | .pending => .Pending
  | .running => .Running
  | .succeeded => .Succeeded
  | .failed => .Failed
  | .cancelled => .Cancelled

/-- Modelled from the spec: a JobHandle identifies a remote job
(job id, parent cluster id); immutable once created.  A handle is valid when
its job id is non-empty. -/
structure JobHandle where
  jobId : String
  clusterId : String
deriving Repr, DecidableEq

/-- Modelled from the spec: PollConfig, the interval between status checks and
the maximum wait duration, in seconds.  The opaque credentials reference is
omitted since no claim mentions it. -/
structure PollConfig where
  interval : Nat
  maxWait : Nat
deriving Repr, DecidableEq

/-- Modelled from the spec: a valid configuration has interval > 0 and
maxWait at least interval. -/
def PollConfig.valid (cfg : PollConfig) : Prop :=
  0 < cfg.interval ∧ cfg.interval ≤ cfg.maxWait

instance (cfg : PollConfig) : Decidable cfg.valid := by
  unfold PollConfig.valid; infer_instance

/-- Modelled from the spec: the external world a single poller run observes.
`status k` is the remote answer to the k-th status query (0-indexed);
`cancelTime` is the wall-clock instant, if any, at which the best-effort
cancel signal for this handle arrives. -/
structure PollEnv where
  status : Nat → JobStatus
  cancelTime : Option Nat

/-- Modelled from the spec: whether the cancel signal has arrived by
wall-clock time t.  Cancellation is cooperative: this is consulted at each
wake-up, never in the middle of a query. -/
def cancelSignalled (env : PollEnv) (t : Nat) : Bool :=
  match env.cancelTime with
  | none => false
  | some c => c ≤ t

/-- Modelled from the spec: the outcome of one poller run: the terminal
PollState, the last-known raw status payload, the number of status queries
issued, the elapsed wall-clock time at return, the sequence of PollStates
entered, and the wall-clock instants at which the queries were issued. -/
structure PollResult where
  state : PollState
  payload : Option JobStatus
  queries : Nat
  elapsed : Nat
  trace : List PollState
  qtimes : List Nat
deriving Repr, DecidableEq

/-- Modelled from the spec: the error a start call can fail with before any
query is issued. -/
inductive StartError where
  | InvalidConfig
deriving Repr, DecidableEq

/-- Modelled from the spec: the polling loop.  At each wake-up it first checks
the cooperative cancel signal, then the wall-clock deadline (elapsed ≥
maxWait), and only then issues a status query; a terminal response ends the
run, a non-terminal one suspends for `interval` and re-queries.  `fuel` bounds
the recursion; `start` supplies enough fuel that the bound is never the
deciding factor. -/
def pollLoop (env : PollEnv) (cfg : PollConfig) :
    Nat → Nat → Nat → Option JobStatus → PollResult
  | 0, t, q, p =>
      { state := .TimedOut, payload := p, queries := q, elapsed := t,
        trace := [.TimedOut], qtimes := [] }
  | fuel + 1, t, q, p =>
      if cancelSignalled env t then
        { state := .Cancelled, payload := p, queries := q, elapsed := t,
          trace := [.Cancelled], qtimes := [] }
      else if cfg.maxWait ≤ t then
        { state := .TimedOut, payload := p, queries := q, elapsed := t,
          trace := [.TimedOut], qtimes := [] }
      else
        let s := env.status q
        if s.isTerminal then
          { state := s.toPollState, payload := some s, queries := q + 1,
            elapsed := t, trace := [s.toPollState], qtimes := [t] }
        else
          let r := pollLoop env cfg fuel (t + cfg.interval) (q + 1) (some s)
          { r with trace := .Running :: r.trace, qtimes := t :: r.qtimes }

/-- Modelled from the spec: `start(handle, config)`.  A malformed
configuration (interval ≤ 0 or maxWait < interval) fails immediately with
InvalidConfig and issues no query; otherwise the poller starts in Pending at
elapsed time 0 and runs the loop.  The handle is a documented precondition
(non-empty job id); the remote endpoint it denotes is abstracted by `env`. -/
def start (env : PollEnv) (handle : JobHandle) (cfg : PollConfig) :
    Except StartError PollResult :=
  if cfg.valid then
    let r := pollLoop env cfg (cfg.maxWait + 1) 0 0 none
    .ok { r with trace := .Pending :: r.trace }
  else
    .error .InvalidConfig

/-- Modelled from the spec: the last-known raw status payload after q queries
whose responses come from `env`: none before the first query, otherwise the
response to the most recent query. -/
def lastPayload (env : PollEnv) (q : Nat) : Option JobStatus :=
  match q with
  | 0 => none
  | k + 1 => some (env.status k)

theorem toPollState_terminal (s : JobStatus) (h : s.isTerminal = true) :
    s.toPollState.isTerminal = true := by
  cases s <;> simp_all [JobStatus.isTerminal, JobStatus.toPollState,
    PollState.isTerminal]

theorem pollLoop_state_terminal (env : PollEnv) (cfg : PollConfig) :
    ∀ fuel t q p, ((pollLoop env cfg fuel t q p).state).isTerminal = true := by
  intro fuel
  induction fuel with
  | zero => intro t q p; rfl
  | succ n ih =>
    intro t q p
    unfold pollLoop
    cases hc : cancelSignalled env t with
    | true => simp [hc, PollState.isTerminal]
    | false =>
      by_cases hm : cfg.maxWait ≤ t
      · simp [hc, hm, PollState.isTerminal]
      · cases hs : (env.status q).isTerminal with
        | true => simp [hc, hm, hs, toPollState_terminal _ hs]
        | false =>
          have hrec := ih (t + cfg.interval) (q + 1) (some (env.status q))
          simpa [hc, hm, hs] using hrec

theorem pollLoop_payload (env : PollEnv) (cfg : PollConfig) :
    ∀ fuel t q p, p = lastPayload env q →
      (pollLoop env cfg fuel t q p).payload =
        lastPayload env (pollLoop env cfg fuel t q p).queries := by
  intro fuel
  induction fuel with
  | zero => intro t q p hp; simpa [pollLoop] using hp
  | succ n ih =>
    intro t q p hp
    unfold pollLoop
    cases hc : cancelSignalled env t with
    | true => simpa [hc] using hp
    | false =>
      by_cases hm : cfg.maxWait ≤ t
      · simpa [hc, hm] using hp
      · cases hs : (env.status q).isTerminal with
        | true => simp [hc, hm, hs, lastPayload]
        | false =>
          have := ih (t + cfg.interval) (q + 1) (some (env.status q))
            (by simp [lastPayload])
          simpa [hc, hm, hs] using this

/-- C1: for every valid input pair (JobHandle with non-empty job id,
PollConfig with interval > 0 and maxWait ≥ interval), `start` terminates and
returns exactly one result, whose PollState is terminal (one of Succeeded,
Failed, Cancelled, TimedOut) and whose payload is the last-known raw status
payload. -/
theorem start_returns_terminal (env : PollEnv) (h : JobHandle)
    (cfg : PollConfig) (hh : h.jobId ≠ "") (hcfg : cfg.valid) :
    ∃ r : PollResult, start env h cfg = .ok r ∧ r.state.isTerminal = true ∧
      r.payload = lastPayload env r.queries := by
  have hstart : start env h cfg =
      .ok { pollLoop env cfg (cfg.maxWait + 1) 0 0 none with
            trace := .Pending ::
              (pollLoop env cfg (cfg.maxWait + 1) 0 0 none).trace } := by
    simp [start, hcfg]
  refine ⟨_, hstart, ?_, ?_⟩
  · exact pollLoop_state_terminal env cfg (cfg.maxWait + 1) 0 0 none
  · exact pollLoop_payload env cfg (cfg.maxWait + 1) 0 0 none rfl

/-- Witness for C1 at a concrete valid input. -/
theorem start_returns_terminal_witness :
    ∃ r : PollResult,
      start ⟨fun _ => .succeeded, none⟩ ⟨"job-1", "vc-1"⟩ ⟨5, 10⟩ = .ok r ∧
      r.state.isTerminal = true ∧
      r.payload = lastPayload ⟨fun _ => .succeeded, none⟩ r.queries :=
  start_returns_terminal ⟨fun _ => .succeeded, none⟩ ⟨"job-1", "vc-1"⟩ ⟨5, 10⟩
    (by decide) (by decide)

theorem pollLoop_succ (env : PollEnv) (cfg : PollConfig)
    (n t q : Nat) (p : Option JobStatus) :
    pollLoop env cfg (n + 1) t q p =
      if cancelSignalled env t then
        { state := .Cancelled, payload := p, queries := q, elapsed := t,
          trace := [.Cancelled], qtimes := [] }
      else if cfg.maxWait ≤ t then
        { state := .TimedOut, payload := p, queries := q, elapsed := t,
          trace := [.TimedOut], qtimes := [] }
      else
        let s := env.status q
        if s.isTerminal then
          { state := s.toPollState, payload := some s, queries := q + 1,
            elapsed := t, trace := [s.toPollState], qtimes := [t] }
        else
          let r := pollLoop env cfg n (t + cfg.interval) (q + 1) (some s)
          { r with trace := .Running :: r.trace, qtimes := t :: r.qtimes } :=
  rfl

theorem pollLoop_cancel_eq (env : PollEnv) (cfg : PollConfig)
    (n t q : Nat) (p : Option JobStatus)
    (hc : cancelSignalled env t = true) :
    pollLoop env cfg (n + 1) t q p =
      { state := .Cancelled, payload := p, queries := q, elapsed := t,
        trace := [.Cancelled], qtimes := [] } := by
  rw [pollLoop_succ]; simp [hc]

theorem pollLoop_timeout_eq (env : PollEnv) (cfg : PollConfig)
    (n t q : Nat) (p : Option JobStatus)
    (hc : cancelSignalled env t = false) (hm : cfg.maxWait ≤ t) :
    pollLoop env cfg (n + 1) t q p =
      { state := .TimedOut, payload := p, queries := q, elapsed := t,
        trace := [.TimedOut], qtimes := [] } := by
  rw [pollLoop_succ]; simp [hc, hm]

theorem pollLoop_terminal_eq (env : PollEnv) (cfg : PollConfig)
    (n t q : Nat) (p : Option JobStatus)
    (hc : cancelSignalled env t = false) (hm : ¬ cfg.maxWait ≤ t)
    (hs : (env.status q).isTerminal = true) :
    pollLoop env cfg (n + 1) t q p =
      { state := (env.status q).toPollState, payload := some (env.status q),
        queries := q + 1, elapsed := t,
        trace := [(env.status q).toPollState], qtimes := [t] } := by
  rw [pollLoop_succ]; simp [hc, hm, hs]

theorem pollLoop_query_state (env : PollEnv) (cfg : PollConfig)
    (n t q : Nat) (p : Option JobStatus)
    (hc : cancelSignalled env t = false) (hm : ¬ cfg.maxWait ≤ t)
    (hs : (env.status q).isTerminal = false) :
    (pollLoop env cfg (n + 1) t q p).state =
      (pollLoop env cfg n (t + cfg.interval) (q + 1)
        (some (env.status q))).state := by
  rw [pollLoop_succ]; simp [hc, hm, hs]

theorem pollLoop_query_payload (env : PollEnv) (cfg : PollConfig)
    (n t q : Nat) (p : Option JobStatus)
    (hc : cancelSignalled env t = false) (hm : ¬ cfg.maxWait ≤ t)
    (hs : (env.status q).isTerminal = false) :
    (pollLoop env cfg (n + 1) t q p).payload =
      (pollLoop env cfg n (t + cfg.interval) (q + 1)
        (some (env.status q))).payload := by
  rw [pollLoop_succ]; simp [hc, hm, hs]

theorem pollLoop_query_queries (env : PollEnv) (cfg : PollConfig)
    (n t q : Nat) (p : Option JobStatus)
    (hc : cancelSignalled env t = false) (hm : ¬ cfg.maxWait ≤ t)
    (hs : (env.status q).isTerminal = false) :
    (pollLoop env cfg (n + 1) t q p).queries =
      (pollLoop env cfg n (t + cfg.interval) (q + 1)
        (some (env.status q))).queries := by
  rw [pollLoop_succ]; simp [hc, hm, hs]

theorem pollLoop_query_elapsed (env : PollEnv) (cfg : PollConfig)
    (n t q : Nat) (p : Option JobStatus)
    (hc : cancelSignalled env t = false) (hm : ¬ cfg.maxWait ≤ t)
    (hs : (env.status q).isTerminal = false) :
    (pollLoop env cfg (n + 1) t q p).elapsed =
      (pollLoop env cfg n (t + cfg.interval) (q + 1)
        (some (env.status q))).elapsed := by
  rw [pollLoop_succ]; simp [hc, hm, hs]

theorem pollLoop_query_trace (env : PollEnv) (cfg : PollConfig)
    (n t q : Nat) (p : Option JobStatus)
    (hc : cancelSignalled env t = false) (hm : ¬ cfg.maxWait ≤ t)
    (hs : (env.status q).isTerminal = false) :
    (pollLoop env cfg (n + 1) t q p).trace =
      .Running :: (pollLoop env cfg n (t + cfg.interval) (q + 1)
        (some (env.status q))).trace := by
  rw [pollLoop_succ]; simp [hc, hm, hs]

theorem pollLoop_query_qtimes (env : PollEnv) (cfg : PollConfig)
    (n t q : Nat) (p : Option JobStatus)
    (hc : cancelSignalled env t = false) (hm : ¬ cfg.maxWait ≤ t)
    (hs : (env.status q).isTerminal = false) :
    (pollLoop env cfg (n + 1) t q p).qtimes =
      t :: (pollLoop env cfg n (t + cfg.interval) (q + 1)
        (some (env.status q))).qtimes := by
  rw [pollLoop_succ]; simp [hc, hm, hs]

theorem start_eq_ok (env : PollEnv) (h : JobHandle) (cfg : PollConfig)
    (hcfg : cfg.valid) :
    start env h cfg =
      .ok { pollLoop env cfg (cfg.maxWait + 1) 0 0 none with
            trace := .Pending ::
              (pollLoop env cfg (cfg.maxWait + 1) 0 0 none).trace } := by
  simp [start, hcfg]

theorem pollLoop_all_running_timeout (env : PollEnv) (cfg : PollConfig)
    (hs : ∀ k, env.status k = .running) (hc : env.cancelTime = none) :
    ∀ fuel t q p, cfg.maxWait ≤ t + fuel * cfg.interval →
      (pollLoop env cfg fuel t q p).state = .TimedOut ∧
      cfg.maxWait ≤ (pollLoop env cfg fuel t q p).elapsed ∧
      ((pollLoop env cfg fuel t q p).elapsed = t ∨
        (pollLoop env cfg fuel t q p).elapsed < cfg.maxWait + cfg.interval) := by
  intro fuel
  induction fuel with
  | zero =>
    intro t q p hfuel
    refine ⟨rfl, ?_, Or.inl rfl⟩
    simpa using hfuel
  | succ n ih =>
    intro t q p hfuel
    have hcf : cancelSignalled env t = false := by simp [cancelSignalled, hc]
    by_cases hm : cfg.maxWait ≤ t
    · rw [pollLoop_timeout_eq env cfg n t q p hcf hm]
      exact ⟨rfl, hm, Or.inl rfl⟩
    · have hrun : env.status q = .running := hs q
      have hterm : (env.status q).isTerminal = false := by
        simp [hrun, JobStatus.isTerminal]
      have hfuel2 : cfg.maxWait ≤ (t + cfg.interval) + n * cfg.interval := by
        have hmul : t + (n + 1) * cfg.interval =
            (t + cfg.interval) + n * cfg.interval := by ring
        omega
      have hrec := ih (t + cfg.interval) (q + 1) (some (env.status q)) hfuel2
      have hlt : t < cfg.maxWait := by omega
      rw [pollLoop_query_state env cfg n t q p hcf hm hterm,
        pollLoop_query_elapsed env cfg n t q p hcf hm hterm]
      refine ⟨hrec.1, hrec.2.1, ?_⟩
      rcases hrec.2.2 with heq | hlt2
      · right; omega
      · right; exact hlt2

/-- Modelled from the spec: a remote endpoint that answers Running to every
status query, with no cancel signal. -/
def envAllRunning : PollEnv := ⟨fun _ => .running, none⟩

/-- Modelled from the spec: a concrete valid JobHandle used in the scenario
instances. -/
def handleJ : JobHandle := ⟨"job-0001", "vcluster-01"⟩

/-- C2: if every status query returns Running, `start` returns Timeout exactly
when elapsed time first reaches or exceeds maxWait and never before; in the
instance interval=5, maxWait=10 exactly 2 queries are issued and the outcome
is Timeout at elapsed time 10. -/
theorem start_timeout_when_always_running (env : PollEnv) (h : JobHandle)
    (cfg : PollConfig) (hh : h.jobId ≠ "") (hcfg : cfg.valid)
    (hs : ∀ k, env.status k = .running) (hc : env.cancelTime = none) :
    (∃ r : PollResult, start env h cfg = .ok r ∧ r.state = .TimedOut ∧
        cfg.maxWait ≤ r.elapsed ∧ r.elapsed < cfg.maxWait + cfg.interval) ∧
      start envAllRunning handleJ ⟨5, 10⟩ =
        .ok { state := .TimedOut, payload := some .running, queries := 2,
              elapsed := 10,
              trace := [.Pending, .Running, .Running, .TimedOut],
              qtimes := [0, 5] } := by
  constructor
  · have hfuel : cfg.maxWait ≤ 0 + (cfg.maxWait + 1) * cfg.interval := by
      have h1 : (cfg.maxWait + 1) * 1 ≤ (cfg.maxWait + 1) * cfg.interval :=
        Nat.mul_le_mul_left _ hcfg.1
      omega
    have hrec := pollLoop_all_running_timeout env cfg hs hc
      (cfg.maxWait + 1) 0 0 none hfuel
    have hpos : 0 < cfg.maxWait := lt_of_lt_of_le hcfg.1 hcfg.2
    refine ⟨_, start_eq_ok env h cfg hcfg, hrec.1, hrec.2.1, ?_⟩
    rcases hrec.2.2 with heq | hlt
    · omega
    · exact hlt
  · rfl

/-- Witness for C2 at the concrete all-Running instance. -/
theorem start_timeout_when_always_running_witness :
    (∃ r : PollResult, start envAllRunning handleJ ⟨5, 10⟩ = .ok r ∧
        r.state = .TimedOut ∧ 10 ≤ r.elapsed ∧ r.elapsed < 10 + 5) ∧
      start envAllRunning handleJ ⟨5, 10⟩ =
        .ok { state := .TimedOut, payload := some .running, queries := 2,
              elapsed := 10,
              trace := [.Pending, .Running, .Running, .TimedOut],
              qtimes := [0, 5] } :=
  start_timeout_when_always_running envAllRunning handleJ ⟨5, 10⟩
    (by decide) (by decide) (fun _ => rfl) rfl

/-- C4: start fails with InvalidConfig exactly when the configuration is
invalid (interval ≤ 0 or maxWait < interval), the failure is immediate, and on
that error no outbound status query is performed: the outcome does not depend
on the remote environment at all. -/
theorem start_invalid_config_iff (env env2 : PollEnv) (h : JobHandle)
    (cfg : PollConfig) :
    (start env h cfg = .error .InvalidConfig ↔
      ¬ (0 < cfg.interval ∧ cfg.interval ≤ cfg.maxWait)) ∧
    (¬ (0 < cfg.interval ∧ cfg.interval ≤ cfg.maxWait) →
      start env h cfg = start env2 h cfg) := by
  constructor
  · constructor
    · intro herr hval
      have hok := start_eq_ok env h cfg hval
      rw [hok] at herr
      exact absurd herr (by simp)
    · intro hnv
      have hv : ¬ cfg.valid := hnv
      simp [start, hv]
  · intro hnv
    have hv : ¬ cfg.valid := hnv
    simp [start, hv]

/-- Witness for C4 at the concrete invalid configuration interval = 0. -/
theorem start_invalid_config_iff_witness :
    start envAllRunning handleJ ⟨0, 10⟩ = .error .InvalidConfig ∧
      start envAllRunning handleJ ⟨0, 10⟩ =
        start ⟨fun _ => .succeeded, none⟩ handleJ ⟨0, 10⟩ :=
  ⟨(start_invalid_config_iff envAllRunning ⟨fun _ => .succeeded, none⟩
      handleJ ⟨0, 10⟩).1.mpr (by decide),
   (start_invalid_config_iff envAllRunning ⟨fun _ => .succeeded, none⟩
      handleJ ⟨0, 10⟩).2 (by decide)⟩

theorem pollLoop_succeeds_at (env : PollEnv) (cfg : PollConfig)
    (hc : env.cancelTime = none) :
    ∀ m fuel t q p, m < fuel →
      (∀ k, k < m → (env.status (q + k)).isTerminal = false) →
      env.status (q + m) = .succeeded →
      t + m * cfg.interval < cfg.maxWait →
      (pollLoop env cfg fuel t q p).state = .Succeeded ∧
      (pollLoop env cfg fuel t q p).payload = some .succeeded ∧
      (pollLoop env cfg fuel t q p).queries = q + m + 1 ∧
      (pollLoop env cfg fuel t q p).elapsed = t + m * cfg.interval := by
  intro m
  induction m with
  | zero =>
    intro fuel t q p hfuel hpre hsucc hdead
    obtain ⟨f, rfl⟩ : ∃ f, fuel = f + 1 := ⟨fuel - 1, by omega⟩
    have hcf : cancelSignalled env t = false := by simp [cancelSignalled, hc]
    have hm : ¬ cfg.maxWait ≤ t := by
      simp only [Nat.zero_mul, Nat.add_zero] at hdead
      omega
    simp only [Nat.add_zero] at hsucc
    have hterm : (env.status q).isTerminal = true := by
      rw [hsucc]; rfl
    rw [pollLoop_terminal_eq env cfg f t q p hcf hm hterm]
    refine ⟨?_, ?_, rfl, ?_⟩
    · simp [hsucc, JobStatus.toPollState]
    · simp [hsucc]
    · simp
  | succ mm ih =>
    intro fuel t q p hfuel hpre hsucc hdead
    obtain ⟨f, rfl⟩ : ∃ f, fuel = f + 1 := ⟨fuel - 1, by omega⟩
    have hcf : cancelSignalled env t = false := by simp [cancelSignalled, hc]
    have hmul : (mm + 1) * cfg.interval =
        mm * cfg.interval + cfg.interval := by ring
    have hm : ¬ cfg.maxWait ≤ t := by omega
    have hterm0 : (env.status q).isTerminal = false := by
      have h0 := hpre 0 (Nat.succ_pos mm)
      simpa using h0
    have hpre2 : ∀ k, k < mm →
        (env.status (q + 1 + k)).isTerminal = false := by
      intro k hk
      have h3 := hpre (k + 1) (by omega)
      have heq : q + 1 + k = q + (k + 1) := by omega
      rw [heq]; exact h3
    have hsucc2 : env.status (q + 1 + mm) = .succeeded := by
      have heq : q + 1 + mm = q + (mm + 1) := by omega
      rw [heq]; exact hsucc
    have hdead2 : (t + cfg.interval) + mm * cfg.interval < cfg.maxWait := by
      omega
    have hrec := ih f (t + cfg.interval) (q + 1) (some (env.status q))
      (by omega) hpre2 hsucc2 hdead2
    rw [pollLoop_query_state env cfg f t q p hcf hm hterm0,
      pollLoop_query_payload env cfg f t q p hcf hm hterm0,
      pollLoop_query_queries env cfg f t q p hcf hm hterm0,
      pollLoop_query_elapsed env cfg f t q p hcf hm hterm0]
    refine ⟨hrec.1, hrec.2.1, ?_, ?_⟩
    · have h4 := hrec.2.2.1
      omega
    · have h5 := hrec.2.2.2
      omega

/-- Modelled from the spec: a remote endpoint answering Running to the first
three status queries and Succeeded to every later one, with no cancel
signal. -/
def envThreeRunningThenSucceeded : PollEnv :=
  ⟨fun k => if k < 3 then .running else .succeeded, none⟩

/-- C3: if the first N-1 status queries return non-terminal states and the
Nth returns Succeeded, with N * interval ≤ maxWait, then start issues exactly
N queries and its result reflects the Nth poll; in the instance interval=5,
maxWait=20 with responses Running, Running, Running, Succeeded, exactly 4
queries are issued and the outcome is Succeeded at elapsed time 15. -/
theorem start_succeeds_on_nth_poll (env : PollEnv) (h : JobHandle)
    (cfg : PollConfig) (N : Nat) (hh : h.jobId ≠ "") (hcfg : cfg.valid)
    (hc : env.cancelTime = none) (hN : 0 < N)
    (hNw : N * cfg.interval ≤ cfg.maxWait)
    (hpre : ∀ k, k < N - 1 → (env.status k).isTerminal = false)
    (hsucc : env.status (N - 1) = .succeeded) :
    (∃ r : PollResult, start env h cfg = .ok r ∧ r.state = .Succeeded ∧
        r.queries = N ∧ r.payload = some .succeeded ∧
        r.elapsed = (N - 1) * cfg.interval) ∧
      start envThreeRunningThenSucceeded handleJ ⟨5, 20⟩ =
        .ok { state := .Succeeded, payload := some .succeeded, queries := 4,
              elapsed := 15,
              trace := [.Pending, .Running, .Running, .Running, .Succeeded],
              qtimes := [0, 5, 10, 15] } := by
  constructor
  · have hmul : N * cfg.interval = (N - 1) * cfg.interval + cfg.interval := by
      have hN1 : N = (N - 1) + 1 := by omega
      calc N * cfg.interval = ((N - 1) + 1) * cfg.interval := by rw [← hN1]
        _ = (N - 1) * cfg.interval + cfg.interval := by ring
    have hipos : 0 < cfg.interval := hcfg.1
    have hNle : N ≤ N * cfg.interval := by
      have h1 : N * 1 ≤ N * cfg.interval := Nat.mul_le_mul_left _ hcfg.1
      omega
    have hfuel : N - 1 < cfg.maxWait + 1 := by omega
    have hdead : 0 + (N - 1) * cfg.interval < cfg.maxWait := by omega
    have hpre0 : ∀ k, k < N - 1 →
        (env.status (0 + k)).isTerminal = false := by
      intro k hk; simpa using hpre k hk
    have hsucc0 : env.status (0 + (N - 1)) = .succeeded := by simpa using hsucc
    have hrec := pollLoop_succeeds_at env cfg hc (N - 1) (cfg.maxWait + 1)
      0 0 none hfuel hpre0 hsucc0 hdead
    refine ⟨_, start_eq_ok env h cfg hcfg, hrec.1, ?_, hrec.2.1, ?_⟩
    · show (pollLoop env cfg (cfg.maxWait + 1) 0 0 none).queries = N
      have h4 := hrec.2.2.1
      omega
    · show (pollLoop env cfg (cfg.maxWait + 1) 0 0 none).elapsed =
        (N - 1) * cfg.interval
      have h5 := hrec.2.2.2
      simpa using h5
  · rfl

/-- Witness for C3 at the concrete Running, Running, Running, Succeeded
instance. -/
theorem start_succeeds_on_nth_poll_witness :
    (∃ r : PollResult,
        start envThreeRunningThenSucceeded handleJ ⟨5, 20⟩ = .ok r ∧
        r.state = .Succeeded ∧ r.queries = 4 ∧ r.payload = some .succeeded ∧
        r.elapsed = (4 - 1) * 5) ∧
      start envThreeRunningThenSucceeded handleJ ⟨5, 20⟩ =
        .ok { state := .Succeeded, payload := some .succeeded, queries := 4,
              elapsed := 15,
              trace := [.Pending, .Running, .Running, .Running, .Succeeded],
              qtimes := [0, 5, 10, 15] } :=
  start_succeeds_on_nth_poll envThreeRunningThenSucceeded handleJ ⟨5, 20⟩ 4
    (by decide) (by decide) rfl (by decide) (by decide) (by decide) (by decide)

theorem pollLoop_cancel_at (env : PollEnv) (cfg : PollConfig) (c : Nat)
    (hc : env.cancelTime = some c) (hcmax : c ≤ cfg.maxWait) :
    ∀ m fuel t q p, m < fuel →
      (∀ k, k < m → (env.status (q + k)).isTerminal = false) →
      (∀ j, j < m → ¬ c ≤ t + j * cfg.interval) →
      c ≤ t + m * cfg.interval →
      (pollLoop env cfg fuel t q p).state = .Cancelled ∧
      (pollLoop env cfg fuel t q p).queries = q + m ∧
      (pollLoop env cfg fuel t q p).elapsed = t + m * cfg.interval := by
  intro m
  induction m with
  | zero =>
    intro fuel t q p hfuel hpre hj hct
    obtain ⟨f, rfl⟩ : ∃ f, fuel = f + 1 := ⟨fuel - 1, by omega⟩
    have hle : c ≤ t := by simpa using hct
    have hcs : cancelSignalled env t = true := by
      simp [cancelSignalled, hc, hle]
    rw [pollLoop_cancel_eq env cfg f t q p hcs]
    exact ⟨rfl, by simp, by simp⟩
  | succ mm ih =>
    intro fuel t q p hfuel hpre hj hct
    obtain ⟨f, rfl⟩ : ∃ f, fuel = f + 1 := ⟨fuel - 1, by omega⟩
    have h0 : ¬ c ≤ t := by
      have h1 := hj 0 (Nat.succ_pos mm)
      simpa using h1
    have hcs : cancelSignalled env t = false := by
      simp [cancelSignalled, hc, h0]
    have hm : ¬ cfg.maxWait ≤ t := by omega
    have hterm0 : (env.status q).isTerminal = false := by
      have h2 := hpre 0 (Nat.succ_pos mm)
      simpa using h2
    have hmul : (mm + 1) * cfg.interval =
        mm * cfg.interval + cfg.interval := by ring
    have hpre2 : ∀ k, k < mm →
        (env.status (q + 1 + k)).isTerminal = false := by
      intro k hk
      have h3 := hpre (k + 1) (by omega)
      have heq : q + 1 + k = q + (k + 1) := by omega
      rw [heq]; exact h3
    have hj2 : ∀ j, j < mm →
        ¬ c ≤ (t + cfg.interval) + j * cfg.interval := by
      intro j hk
      have h4 := hj (j + 1) (by omega)
      have heq : t + (j + 1) * cfg.interval =
          t + cfg.interval + j * cfg.interval := by ring
      omega
    have hct2 : c ≤ (t + cfg.interval) + mm * cfg.interval := by omega
    have hrec := ih f (t + cfg.interval) (q + 1) (some (env.status q))
      (by omega) hpre2 hj2 hct2
    rw [pollLoop_query_state env cfg f t q p hcs hm hterm0,
      pollLoop_query_queries env cfg f t q p hcs hm hterm0,
      pollLoop_query_elapsed env cfg f t q p hcs hm hterm0]
    refine ⟨hrec.1, ?_, ?_⟩
    · have h5 := hrec.2.1
      omega
    · have h6 := hrec.2.2
      omega

/-- C5: if the cancel signal arrives at time c before any terminal state has
been reached (no query ever answers a terminal status and c is within the
deadline), then start returns Cancelled at its next wake-up point: the elapsed
time at return is the first wake-up boundary at or after c, a multiple of the
interval lying within one interval of c, and every counted query completed at
a wake-up boundary before it, so the poller never aborts mid-query. -/
theorem start_cancel_next_wakeup (env : PollEnv) (h : JobHandle)
    (cfg : PollConfig) (c : Nat) (hh : h.jobId ≠ "") (hcfg : cfg.valid)
    (hcan : env.cancelTime = some c) (hcm : c ≤ cfg.maxWait)
    (hnt : ∀ k, (env.status k).isTerminal = false) :
    ∃ r : PollResult, start env h cfg = .ok r ∧ r.state = .Cancelled ∧
      c ≤ r.elapsed ∧ r.elapsed < c + cfg.interval ∧
      r.elapsed % cfg.interval = 0 ∧
      r.queries * cfg.interval = r.elapsed := by
  have hipos : 0 < cfg.interval := hcfg.1
  have hex : ∃ m, c ≤ m * cfg.interval := by
    refine ⟨c, ?_⟩
    have h1 : c * 1 ≤ c * cfg.interval := Nat.mul_le_mul_left _ hipos
    omega
  obtain ⟨m, hfind, hmin⟩ : ∃ m, c ≤ m * cfg.interval ∧
      ∀ j, j < m → ¬ c ≤ j * cfg.interval :=
    ⟨Nat.find hex, Nat.find_spec hex, fun j hj => Nat.find_min hex hj⟩
  have hmlt : m < cfg.maxWait + 1 := by
    rcases Nat.eq_zero_or_pos m with hz | hpos
    · omega
    · have h1 := hmin (m - 1) (by omega)
      have h2 : (m - 1) * 1 ≤ (m - 1) * cfg.interval :=
        Nat.mul_le_mul_left _ hipos
      omega
  have hpre : ∀ k, k < m → (env.status (0 + k)).isTerminal = false := by
    intro k _
    simpa using hnt k
  have hj0 : ∀ j, j < m → ¬ c ≤ 0 + j * cfg.interval := by
    intro j hj
    simpa using hmin j hj
  have hct : c ≤ 0 + m * cfg.interval := by simpa using hfind
  have hrec := pollLoop_cancel_at env cfg c hcan hcm m (cfg.maxWait + 1)
    0 0 none hmlt hpre hj0 hct
  refine ⟨_, start_eq_ok env h cfg hcfg, ?_, ?_, ?_, ?_, ?_⟩
  · exact hrec.1
  · show c ≤ (pollLoop env cfg (cfg.maxWait + 1) 0 0 none).elapsed
    have h5 := hrec.2.2
    omega
  · show (pollLoop env cfg (cfg.maxWait + 1) 0 0 none).elapsed <
      c + cfg.interval
    have h5 := hrec.2.2
    rcases Nat.eq_zero_or_pos m with hz | hpos
    · rw [hz] at h5
      simp at h5
      omega
    · have h1 := hmin (m - 1) (by omega)
      have hmul : m * cfg.interval =
          (m - 1) * cfg.interval + cfg.interval := by
        have hm1 : m = (m - 1) + 1 := by omega
        calc m * cfg.interval = ((m - 1) + 1) * cfg.interval := by rw [← hm1]
          _ = (m - 1) * cfg.interval + cfg.interval := by ring
      omega
  · show (pollLoop env cfg (cfg.maxWait + 1) 0 0 none).elapsed %
      cfg.interval = 0
    rw [hrec.2.2]
    simp [Nat.mul_mod_left]
  · show (pollLoop env cfg (cfg.maxWait + 1) 0 0 none).queries *
      cfg.interval = (pollLoop env cfg (cfg.maxWait + 1) 0 0 none).elapsed
    rw [hrec.2.2, hrec.2.1]
    simp

/-- Modelled from the spec: a remote endpoint that always answers Running,
with the cancel signal arriving at time 7. -/
def envRunningCancelAt7 : PollEnv := ⟨fun _ => .running, some 7⟩

/-- Witness for C5: cancel signalled at time 7 with interval 5 and maxWait 10
makes the poller return Cancelled at the wake-up boundary 10. -/
theorem start_cancel_next_wakeup_witness :
    ∃ r : PollResult, start envRunningCancelAt7 handleJ ⟨5, 10⟩ = .ok r ∧
      r.state = .Cancelled ∧ 7 ≤ r.elapsed ∧ r.elapsed < 7 + 5 ∧
      r.elapsed % 5 = 0 ∧ r.queries * 5 = r.elapsed :=
  start_cancel_next_wakeup envRunningCancelAt7 handleJ ⟨5, 10⟩ 7
    (by decide) (by decide) rfl (by decide) (fun _ => rfl)

/-- Modelled from the spec: the forward transitions of the poller state
machine Pending → Running → {Succeeded, Failed, Cancelled, TimedOut}: from
Pending or Running the machine may move to any state other than Pending
(staying in Running while the job runs), and a terminal state admits no
further transition. -/
def stepOk : PollState → PollState → Bool
  | .Pending, .Pending => false
  | .Pending, _ => true
  | .Running, .Pending => false
  | .Running, _ => true
  | _, _ => false

theorem stepOk_from_pending (b : PollState) (hb : b ≠ .Pending) :
    stepOk .Pending b = true := by
  cases b <;> simp_all [stepOk]

theorem stepOk_from_running (b : PollState) (hb : b ≠ .Pending) :
    stepOk .Running b = true := by
  cases b <;> simp_all [stepOk]

theorem toPollState_ne_pending (s : JobStatus) (hs : s.isTerminal = true) :
    s.toPollState ≠ .Pending := by
  cases s <;> simp_all [JobStatus.isTerminal, JobStatus.toPollState]

theorem pollLoop_trace_spec (env : PollEnv) (cfg : PollConfig) :
    ∀ fuel t q p,
      (pollLoop env cfg fuel t q p).trace ≠ [] ∧
      (∀ x, (pollLoop env cfg fuel t q p).trace.head? = some x →
        x ≠ .Pending) ∧
      List.Chain' (fun a b => stepOk a b = true)
        (pollLoop env cfg fuel t q p).trace ∧
      (pollLoop env cfg fuel t q p).trace.getLast? =
        some (pollLoop env cfg fuel t q p).state := by
  intro fuel
  induction fuel with
  | zero =>
    intro t q p
    refine ⟨by simp [pollLoop], ?_, ?_, rfl⟩
    · intro x hx
      simp [pollLoop] at hx
      simp [← hx]
    · exact List.chain'_singleton _
  | succ n ih =>
    intro t q p
    cases hc : cancelSignalled env t with
    | true =>
      rw [pollLoop_cancel_eq env cfg n t q p hc]
      refine ⟨by simp, ?_, List.chain'_singleton _, rfl⟩
      intro x hx
      simp at hx
      simp [← hx]
    | false =>
      by_cases hm : cfg.maxWait ≤ t
      · rw [pollLoop_timeout_eq env cfg n t q p hc hm]
        refine ⟨by simp, ?_, List.chain'_singleton _, rfl⟩
        intro x hx
        simp at hx
        simp [← hx]
      · cases hs : (env.status q).isTerminal with
        | true =>
          rw [pollLoop_terminal_eq env cfg n t q p hc hm hs]
          refine ⟨by simp, ?_, List.chain'_singleton _, rfl⟩
          intro x hx
          simp at hx
          rw [← hx]
          exact toPollState_ne_pending _ hs
        | false =>
          have hrec := ih (t + cfg.interval) (q + 1) (some (env.status q))
          rw [pollLoop_query_trace env cfg n t q p hc hm hs,
            pollLoop_query_state env cfg n t q p hc hm hs]
          obtain ⟨y, ys, hl⟩ := List.exists_cons_of_ne_nil hrec.1
          refine ⟨by simp, ?_, ?_, ?_⟩
          · intro x hx
            simp at hx
            simp [← hx]
          · rw [List.chain'_cons']
            refine ⟨?_, hrec.2.2.1⟩
            intro y2 hy2
            exact stepOk_from_running y2 (hrec.2.1 y2 hy2)
          · rw [hl, List.getLast?_cons_cons]
            rw [hl] at hrec
            exact hrec.2.2.2

/-- C6: the PollState of a poller run moves only forward along
Pending → Running → {Succeeded, Failed, Cancelled, TimedOut}: the sequence of
states entered starts at Pending before the first query, every consecutive
pair is an allowed forward transition (so once a terminal state is entered no
further transition occurs, since no transition leaves a terminal state), the
last entry is the returned terminal state, and Running is entered on the
first non-terminal response. -/
theorem start_state_machine_forward (env : PollEnv) (h : JobHandle)
    (cfg : PollConfig) (hh : h.jobId ≠ "") (hcfg : cfg.valid) :
    ∃ r : PollResult, start env h cfg = .ok r ∧
      r.trace.head? = some .Pending ∧
      List.Chain' (fun a b => stepOk a b = true) r.trace ∧
      r.trace.getLast? = some r.state ∧
      r.state.isTerminal = true ∧
      (cancelSignalled env 0 = false →
        (env.status 0).isTerminal = false →
        r.trace[1]? = some .Running) := by
  have hrec := pollLoop_trace_spec env cfg (cfg.maxWait + 1) 0 0 none
  obtain ⟨y, ys, hl⟩ := List.exists_cons_of_ne_nil hrec.1
  refine ⟨_, start_eq_ok env h cfg hcfg, ?_, ?_, ?_, ?_, ?_⟩
  · rfl
  · show List.Chain' (fun a b => stepOk a b = true)
      (.Pending :: (pollLoop env cfg (cfg.maxWait + 1) 0 0 none).trace)
    rw [List.chain'_cons']
    refine ⟨?_, hrec.2.2.1⟩
    intro y2 hy2
    exact stepOk_from_pending y2 (hrec.2.1 y2 hy2)
  · show (List.getLast? (.Pending ::
        (pollLoop env cfg (cfg.maxWait + 1) 0 0 none).trace)) =
      some (pollLoop env cfg (cfg.maxWait + 1) 0 0 none).state
    rw [hl, List.getLast?_cons_cons]
    rw [hl] at hrec
    exact hrec.2.2.2
  · exact pollLoop_state_terminal env cfg (cfg.maxWait + 1) 0 0 none
  · intro hc0 hs0
    have hm0 : ¬ cfg.maxWait ≤ 0 := by
      have := lt_of_lt_of_le hcfg.1 hcfg.2
      omega
    show (.Pending ::
        (pollLoop env cfg (cfg.maxWait + 1) 0 0 none).trace)[1]? =
      some PollState.Running
    rw [pollLoop_query_trace env cfg cfg.maxWait 0 0 none hc0 hm0 hs0]
    simp

/-- Witness for C6 at a concrete valid input whose first response is
non-terminal. -/
theorem start_state_machine_forward_witness :
    ∃ r : PollResult, start envThreeRunningThenSucceeded handleJ ⟨5, 20⟩ =
        .ok r ∧
      r.trace.head? = some .Pending ∧
      List.Chain' (fun a b => stepOk a b = true) r.trace ∧
      r.trace.getLast? = some r.state ∧
      r.state.isTerminal = true ∧
      (cancelSignalled envThreeRunningThenSucceeded 0 = false →
        (envThreeRunningThenSucceeded.status 0).isTerminal = false →
        r.trace[1]? = some .Running) :=
  start_state_machine_forward envThreeRunningThenSucceeded handleJ ⟨5, 20⟩
    (by decide) (by decide)

theorem pollLoop_qtimes_spaced (env : PollEnv) (cfg : PollConfig) :
    ∀ fuel t q p,
      List.Pairwise (fun a b => a + cfg.interval ≤ b)
        (pollLoop env cfg fuel t q p).qtimes ∧
      (∀ x ∈ (pollLoop env cfg fuel t q p).qtimes, t ≤ x) := by
  intro fuel
  induction fuel with
  | zero =>
    intro t q p
    exact ⟨List.Pairwise.nil, by simp [pollLoop]⟩
  | succ n ih =>
    intro t q p
    cases hc : cancelSignalled env t with
    | true =>
      rw [pollLoop_cancel_eq env cfg n t q p hc]
      exact ⟨List.Pairwise.nil, by simp⟩
    | false =>
      by_cases hm : cfg.maxWait ≤ t
      · rw [pollLoop_timeout_eq env cfg n t q p hc hm]
        exact ⟨List.Pairwise.nil, by simp⟩
      · cases hs : (env.status q).isTerminal with
        | true =>
          rw [pollLoop_terminal_eq env cfg n t q p hc hm hs]
          exact ⟨List.pairwise_singleton _ _, by simp⟩
        | false =>
          have hrec := ih (t + cfg.interval) (q + 1) (some (env.status q))
          rw [pollLoop_query_qtimes env cfg n t q p hc hm hs]
          constructor
          · rw [List.pairwise_cons]
            refine ⟨?_, hrec.1⟩
            intro b hb
            exact hrec.2 b hb
          · intro x hx
            rcases List.mem_cons.mp hx with hx0 | hx1
            · omega
            · have := hrec.2 x hx1
              omega

/-- C7: status queries of one poller run are strictly sequential, never two
in flight: the wall-clock instants at which the queries are issued are
pairwise separated by at least one full interval (so each query, answered
within its wake-up, is over before the next is issued) and in particular
strictly increasing. -/
theorem start_queries_sequential (env : PollEnv) (h : JobHandle)
    (cfg : PollConfig) (hh : h.jobId ≠ "") (hcfg : cfg.valid) :
    ∃ r : PollResult, start env h cfg = .ok r ∧
      List.Pairwise (fun a b => a + cfg.interval ≤ b) r.qtimes ∧
      List.Pairwise (fun a b => a < b) r.qtimes := by
  have hrec := pollLoop_qtimes_spaced env cfg (cfg.maxWait + 1) 0 0 none
  refine ⟨_, start_eq_ok env h cfg hcfg, hrec.1, ?_⟩
  refine List.Pairwise.imp ?_ hrec.1
  intro a b hab
  have hipos : 0 < cfg.interval := hcfg.1
  omega

/-- Witness for C7 at the concrete all-Running input with interval 5 and
maxWait 10. -/
theorem start_queries_sequential_witness :
    ∃ r : PollResult, start envAllRunning handleJ ⟨5, 10⟩ = .ok r ∧
      List.Pairwise (fun a b => a + 5 ≤ b) r.qtimes ∧
      List.Pairwise (fun a b => a < b) r.qtimes :=
  start_queries_sequential envAllRunning handleJ ⟨5, 10⟩
    (by decide) (by decide)

/-- TaskId: the task_ids declared in the example DAG of the source file, in
the order of the dependency chain wired at the bottom of the file. -/
inductive TaskId where
  | setup_aws_config
  | create_EKS_cluster_kube_namespace_with_role
  | create_EMR_virtual_cluster
  | run_emr_container_job
  | emr_job_container_sensor
  | remove_clusters_container_role_policy
deriving Repr, DecidableEq

/-- ValueSource: where an operator argument of the DAG gets its value from:
the XCom output of another task (task.output in the source) or a literal. -/
inductive ValueSource where
  | fromTaskOutput (t : TaskId)
  | literal (s : String)
deriving Repr, DecidableEq

/-- EmrContainerSensorAsyncArgs: the keyword arguments the example DAG passes
when instantiating EmrContainerSensorAsync (source lines 131 to 137). -/
structure EmrContainerSensorAsyncArgs where
  task_id : String
  job_id : ValueSource
  virtual_cluster_id : String
  poll_interval : Nat
  aws_conn_id : String
deriving Repr, DecidableEq

/-- VIRTUAL_CLUSTER_ID from the source: os.getenv with default "xxxxxxxx",
parametrised by the process environment. -/
def VIRTUAL_CLUSTER_ID (getenv : String → Option String) : String :=
  (getenv "VIRTUAL_CLUSTER_ID").getD "xxxxxxxx"

/-- AWS_CONN_ID from the source: os.getenv("ASTRO_AWS_CONN_ID") with default
"aws_default". -/
def AWS_CONN_ID (getenv : String → Option String) : String :=
  (getenv "ASTRO_AWS_CONN_ID").getD "aws_default"

/-- The emr_job_container_sensor task of the example DAG: its job_id argument
is run_emr_container_job.output, and poll_interval is 5. -/
def emr_job_container_sensor (getenv : String → Option String) :
    EmrContainerSensorAsyncArgs :=
  { task_id := "emr_job_container_sensor",
    job_id := .fromTaskOutput .run_emr_container_job,
    virtual_cluster_id := VIRTUAL_CLUSTER_ID getenv,
    poll_interval := 5,
    aws_conn_id := AWS_CONN_ID getenv }

/-- The dependency chain of the example DAG (source lines 147 to 154). -/
def dagChain : List TaskId :=
  [.setup_aws_config, .create_EKS_cluster_kube_namespace_with_role,
   .create_EMR_virtual_cluster, .run_emr_container_job,
   .emr_job_container_sensor, .remove_clusters_container_role_policy]

/-- The direct dependency edges induced by the chain: each task points to the
task that immediately follows it. -/
def dagEdges : List (TaskId × TaskId) := dagChain.zip dagChain.tail

/-- C9: the example DAG instantiates the async sensor so that the job id it
polls is exactly the XCom output of the prior submission task
run_emr_container_job, and the sensor is ordered strictly after the
submission task in the dependency chain, with a direct edge between them. -/
theorem dag_sensor_wiring (getenv : String → Option String) :
    (emr_job_container_sensor getenv).job_id =
      .fromTaskOutput .run_emr_container_job ∧
    (TaskId.run_emr_container_job, TaskId.emr_job_container_sensor) ∈
      dagEdges ∧
    dagChain.indexOf TaskId.run_emr_container_job <
      dagChain.indexOf TaskId.emr_job_container_sensor :=
  ⟨rfl, by decide, by decide⟩

/-- EnvMap: the process environment os.environ, as a lookup function. -/
def EnvMap := String → Option String

/-- Assignment os.environ[k] = v. -/
def setEnv (environ : EnvMap) (k v : String) : EnvMap :=
  fun x => if x = k then some v else environ x

/-- The part of a successful create_virtual_cluster response the source
reads: response["id"]. -/
structure CreateVirtualClusterResponse where
  id : String

/-- The outcome of the remote boto3 create_virtual_cluster call: a normal
response, or a raised ClientError. -/
inductive AwsCall (α : Type) where
  | ok (a : α)
  | clientError

/-- The observable effect of one call to create_emr_virtual_cluster_func:
the process environment afterwards, whether the ClientError branch logged an
exception, and the Python return value. -/
structure CreateClusterEffect where
  environ : EnvMap
  loggedError : Bool
  ret : Option String

/-- Embedded from the source (lines 46 to 61): create_emr_virtual_cluster_func
calls create_virtual_cluster inside try; on success it stores response["id"]
in os.environ["VIRTUAL_CLUSTER_ID"] and falls off the end of the function; a
ClientError is caught, logged, and answered with return None.  Both paths
return None and neither re-raises, so the function is total here. -/
def create_emr_virtual_cluster_func (environ : EnvMap)
    (call : AwsCall CreateVirtualClusterResponse) : CreateClusterEffect :=
  match call with
  | .ok resp =>
      { environ := setEnv environ "VIRTUAL_CLUSTER_ID" resp.id,
        loggedError := false, ret := none }
  | .clientError =>
      { environ := environ, loggedError := true, ret := none }

/-- C10: if the remote call raises ClientError,
create_emr_virtual_cluster_func catches it, logs, and returns None with
os.environ unchanged (in particular VIRTUAL_CLUSTER_ID is untouched), so the
error never propagates; only on success is VIRTUAL_CLUSTER_ID set to the id
of the response; and the function returns None on every path. -/
theorem create_emr_virtual_cluster_func_spec :
    (∀ environ : EnvMap,
      (create_emr_virtual_cluster_func environ .clientError).environ =
        environ ∧
      (create_emr_virtual_cluster_func environ .clientError).loggedError =
        true ∧
      (create_emr_virtual_cluster_func environ .clientError).environ
        "VIRTUAL_CLUSTER_ID" = environ "VIRTUAL_CLUSTER_ID") ∧
    (∀ (environ : EnvMap) (resp : CreateVirtualClusterResponse),
      (create_emr_virtual_cluster_func environ (.ok resp)).environ
        "VIRTUAL_CLUSTER_ID" = some resp.id) ∧
    (∀ (environ : EnvMap) (call : AwsCall CreateVirtualClusterResponse),
      (create_emr_virtual_cluster_func environ call).ret = none) := by
  refine ⟨fun environ => ⟨rfl, rfl, rfl⟩, fun environ resp => ?_,
    fun environ call => ?_⟩
  · simp [create_emr_virtual_cluster_func, setEnv]
  · cases call <;> rfl
